import Mathlib

/-!
Shallow embedding of the reviewer-balancing engine from
`pkg/autoreviewer/autoreviewer.go` and the manager (`Manager.Run`).

External collaborators (ADO git client, team store, reviewer store) are
modelled as response environments; platform mutations issued by the engine
are recorded in an explicit effect trace.
-/

set_option autoImplicit false

namespace DevOpsHelper

/-- `defaultBotIdentifier` constant from autoreviewer.go. -/
def defaultBotIdentifier : String := "b03f5f7f11d50a3a"

/-- Errors reported by an external store or transport call.  `notFound`
models `store.ErrNotFound`; `transport` models any other error value. -/
inductive StoreErr where
  | notFound
  | transport (msg : String)
deriving DecidableEq, Repr

/-- `types.Reviewer`, restricted to the fields the engine reads:
the ADO identity id and the alias. -/
structure Reviewer where
  adoID : String
  revAlias : String
deriving DecidableEq, Repr

/-- `types.Team`: a named roster; the engine only reads `Members`. -/
structure Team where
  members : List String
deriving DecidableEq, Repr

/-- `types.ReviewerGroup`: parsed ownership declaration.  The Go code uses
`map[string]bool` sets whose insertions always store `true`; we model each
set as the list of its keys. -/
structure ReviewerGroup where
  owners : List String
  teams : List String
deriving DecidableEq, Repr

/-- The fields of an ADO pull request that the engine reads.
`createdByAlias` is a ghost field: the real-world alias of the author,
never read by any embedded code path (the code can only learn the alias
through the reviewer store); it exists so that claims about "the author's
alias" can be stated. -/
structure PullRequest where
  pullRequestId : Nat
  title : String
  isDraft : Option Bool
  targetRefName : String
  createdByID : String
  createdByAlias : String
  repositoryID : String
  url : String
deriving DecidableEq, Repr

/-! ### Set operations on `map[string]bool` models -/

/-- `m[k] = true` insertion on a Go map-as-set: no duplicate keys. -/
def insertSet (s : List String) (x : String) : List String :=
  if x ∈ s then s else s ++ [x]

/-- `delete(m, k)` on a Go map-as-set. -/
def removeSet (s : List String) (x : String) : List String :=
  s.filter (fun a => a ≠ x)

theorem mem_insertSet {s : List String} {x a : String} :
    a ∈ insertSet s x ↔ a ∈ s ∨ a = x := by
  unfold insertSet
  by_cases h : x ∈ s
  · simp only [if_pos h]
    constructor
    · exact Or.inl
    · rintro (ha | rfl)
      · exact ha
      · exact h
  · simp [if_neg h]

theorem mem_removeSet {s : List String} {x a : String} :
    a ∈ removeSet s x ↔ a ∈ s ∧ a ≠ x := by
  unfold removeSet
  simp [List.mem_filter]

theorem mem_foldl_removeSet {l : List String} {s : List String} {a : String} :
    a ∈ l.foldl removeSet s ↔ a ∈ s ∧ a ∉ l := by
  induction l generalizing s with
  | nil => simp
  | cons x xs ih =>
    simp only [List.foldl_cons, ih, mem_removeSet, List.mem_cons]
    constructor
    · rintro ⟨⟨hs, hne⟩, hxs⟩
      exact ⟨hs, by rintro (rfl | h) <;> [exact hne rfl; exact hxs h]⟩
    · rintro ⟨hs, hn⟩
      exact ⟨⟨hs, fun h => hn (Or.inl h)⟩, fun h => hn (Or.inr h)⟩

/-! ### String helpers mirroring the `strings` package -/

/-- `p` is a prefix of `s`, on char lists. -/
def isPrefixChars : List Char → List Char → Bool
  | [], _ => true
  | _ :: _, [] => false
  | p :: ps, c :: cs => p == c && isPrefixChars ps cs

/-- Substring containment on char lists: some suffix of `s` has `pat` as
prefix. -/
def containsChars (pat : List Char) : List Char → Bool
  | [] => isPrefixChars pat []
  | c :: rest => isPrefixChars pat (c :: rest) || containsChars pat rest

/-- `strings.Contains(s, pat)`. -/
def strContains (s pat : String) : Bool :=
  containsChars pat.data s.data

/-- `strings.EqualFold(s, t)` (case-insensitive equality; modelled via
char-wise lowercasing). -/
def equalFold (s t : String) : Bool :=
  s.data.map Char.toLower == t.data.map Char.toLower

/-! ### Filters (`Filter` function values and the default filter slice) -/

/-- `Filter`: returns `true` when the pull request must be excluded. -/
def Filter : Type := PullRequest → Bool

/-- `filterWIP`: excludes when the title contains the literal "WIP". -/
def filterWIP : Filter := fun pr => strContains pr.title "WIP"

/-- `filterDraft`: excludes when `IsDraft` is non-nil and true. -/
def filterDraft : Filter := fun pr =>
  match pr.isDraft with
  | some b => b
  | none => false

/-- `filterMasterBranchOnly`: keeps only PRs targeting `refs/heads/master`
(case-insensitive compare). -/
def filterMasterBranchOnly : Filter := fun pr =>
  if equalFold pr.targetRefName "refs/heads/master" then false else true

/-- `defaultFilters` slice. -/
def defaultFilters : List Filter :=
  [filterWIP, filterMasterBranchOnly, filterDraft]

/-- `AutoReviewer.shouldFilter`: `nil` filter slice filters nothing;
otherwise the PR is filtered when any filter returns true.  A Go nil slice
is modelled as `none`, a non-nil slice as `some`. -/
def shouldFilter (filters : Option (List Filter)) (pr : PullRequest) : Bool :=
  match filters with
  | none => false
  | some fs => fs.any (fun f => f pr)

/-- The filter slice held by an `AutoReviewer` built by `NewAutoReviewer`:
a nil `Options.Filters` is replaced by `defaultFilters`, any non-nil slice
(including the empty one) is kept as supplied. -/
def newAutoReviewerFilters (optFilters : Option (List Filter)) : Option (List Filter) :=
  match optFilters with
  | none => some defaultFilters
  | some fs => some fs

/-! ### External environment for one pull request's balancing -/

/-- Responses of the external collaborators consulted while balancing one
pull request.  `threads` is the `GetThreads` response; `reviewerGroups` the
`GetRequiredReviewerGroups` result; `getTeam` the team store;
`getReviewerByADOID` and `popLRU` the reviewer store; `createReviewerResp`
and `createThreadResp` the platform's answers to the mutation calls. -/
structure BalanceEnv where
  threads : Except StoreErr (List (List (Option String)))
  reviewerGroups : Except StoreErr (List (Option ReviewerGroup))
  getReviewerByADOID : String → Except StoreErr Reviewer
  getTeam : String → Except StoreErr Team
  popLRU : List String → Except StoreErr Reviewer
  createReviewerResp : String → Except StoreErr Unit
  createThreadResp : Except StoreErr Unit

/-! ### Reviewer resolution (`getReviewers`, lines 154-228) -/

/-- Creator lookup (lines 160-163): `ErrNotFound` leaves the creator nil,
any other error is a hard error. -/
def getCreator (env : BalanceEnv) (pr : PullRequest) : Except String (Option Reviewer) :=
  match env.getReviewerByADOID pr.createdByID with
  | .ok r => .ok (some r)
  | .error .notFound => .ok none
  | .error (.transport _) => .error "failed to get pr creator from store"

/-- Teams loop of one group (lines 173-182): any `GetTeam` error is a hard
error; members are inserted into `requiredTeamMembers`. -/
def collectTeams (getTeam : String → Except StoreErr Team) :
    List String → List String → Except String (List String)
  | [], acc => .ok acc
  | tn :: rest, acc =>
    match getTeam tn with
    | .error _ => .error ("failed to get team " ++ tn)
    | .ok team => collectTeams getTeam rest (team.members.foldl insertSet acc)

/-- Owners loop of one group (lines 184-192): an owner whose name resolves
in the team store is skipped; any lookup error admits it as an individual
owner. -/
def collectOwners (getTeam : String → Except StoreErr Team) :
    List String → List String → List String
  | [], acc => acc
  | o :: rest, acc =>
    match getTeam o with
    | .ok _ => collectOwners getTeam rest acc
    | .error _ => collectOwners getTeam rest (insertSet acc o)

/-- Loop over reviewer groups (lines 168-193): nil groups are skipped; each
group's teams are expanded into `requiredTeamMembers` and its owners
classified into `requiredOwners`. -/
def collectGroups (getTeam : String → Except StoreErr Team) :
    List (Option ReviewerGroup) → List String → List String →
    Except String (List String × List String)
  | [], ro, rtm => .ok (ro, rtm)
  | none :: rest, ro, rtm => collectGroups getTeam rest ro rtm
  | some g :: rest, ro, rtm =>
    match collectTeams getTeam g.teams rtm with
    | .error e => .error e
    | .ok rtm2 => collectGroups getTeam rest (collectOwners getTeam g.owners ro) rtm2

/-- The candidate pools `(requiredOwners, requiredTeamMembers)` computed by
`getReviewers` before the pops (lines 155-204): group collection, then
creator removal from both sets (lines 196-199), then owner precedence
(lines 202-204). -/
def computePools (env : BalanceEnv) (pr : PullRequest) :
    Except String (List String × List String) :=
  match env.reviewerGroups with
  | .error _ => .error "failed to get required reviewer groups"
  | .ok groups =>
    match getCreator env pr with
    | .error e => .error e
    | .ok creator =>
      match collectGroups env.getTeam groups [] [] with
      | .error e => .error e
      | .ok (ro0, rtm0) =>
        let ro := match creator with
          | some c => removeSet ro0 c.revAlias
          | none => ro0
        let rtm := match creator with
          | some c => removeSet rtm0 c.revAlias
          | none => rtm0
        .ok (ro, ro.foldl removeSet rtm)

/-- One `PopLRUReviewer` call (lines 210-216 / 218-225): `ErrNotFound`
leaves the slot empty, any other error is hard. -/
def popSlot (env : BalanceEnv) (cands : List String) : Except String (Option Reviewer) :=
  match env.popLRU cands with
  | .ok r => .ok (some r)
  | .error .notFound => .ok none
  | .error (.transport _) => .error "failed to pop reviewer"

/-- `getReviewers` (lines 154-228): pools, then the owner-slot pop and the
team-slot pop; the required list is the non-nil pops in order and the
optional list is always nil. -/
def getReviewers (env : BalanceEnv) (pr : PullRequest) :
    Except String (List Reviewer × List Reviewer) :=
  match computePools env pr with
  | .error e => .error e
  | .ok (ro, rtm) =>
    match popSlot env ro with
    | .error e => .error e
    | .ok owner =>
      match popSlot env rtm with
      | .error e => .error e
      | .ok teamMember => .ok (owner.toList ++ teamMember.toList, [])

/-! ### Platform mutations and side-effect hooks -/

/-- A platform mutation issued (or hook fired) by the engine:
`addReviewer` is a `CreatePullRequestReviewer` call, `postComment` a
`CreateThread` call, `fireTrigger` one `ReviewerTrigger` invocation. -/
inductive Effect where
  | addReviewer (reviewerAdoID : String) (required : Bool)
  | postComment (body : String)
  | fireTrigger (idx : Nat)
deriving DecidableEq, Repr

/-- Result of a call that may also panic (Go `panic` unwinds past the
caller instead of returning an error). -/
inductive ExecResult where
  | ok
  | err (msg : String)
  | panicked
deriving DecidableEq, Repr

/-- Whether an `ExecResult` is an error return surfaced to the caller. -/
def ExecResult.isErr : ExecResult → Bool
  | .err _ => true
  | _ => false

/-- A `ReviewerTrigger` hook: called with required, optional, PR url;
errors are logged and ignored. -/
def ReviewerTrigger : Type := List Reviewer → List Reviewer → String → Except String Unit

/-- `Options`: nil slices are `none`. -/
structure Options where
  filters : Option (List Filter)
  reviewerTriggers : Option (List ReviewerTrigger)

/-! ### Idempotency guard (`ContainsReviewBalancerComment`, lines 276-298) -/

/-- The thread scan of lines 285-296: any comment whose non-nil content
contains the bot identifier. -/
def hasBotComment (botIdentifier : String) (threads : List (List (Option String))) : Bool :=
  threads.any fun comments =>
    comments.any fun c =>
      match c with
      | some content => strContains content botIdentifier
      | none => false

/-- `ContainsReviewBalancerComment`: panics (`none`) when `GetThreads`
fails, otherwise reports whether a bot comment is present. -/
def ContainsReviewBalancerComment (botIdentifier : String)
    (threads : Except StoreErr (List (List (Option String)))) : Option Bool :=
  match threads with
  | .error _ => none
  | .ok ts => some (hasBotComment botIdentifier ts)

/-! ### Mutations (`AddReviewers`, `addReviewerComment`) -/

/-- One reviewer-adding loop of `AddReviewers` (lines 302-314 / 316-328):
each iteration issues a `CreatePullRequestReviewer` call; the first failed
call aborts the loop with an error. -/
def addReviewersLoop (resp : String → Except StoreErr Unit) (isRequired : Bool) :
    List Reviewer → Except String Unit × List Effect
  | [] => (.ok (), [])
  | r :: rest =>
    match resp r.adoID with
    | .ok _ =>
      let (res, effs) := addReviewersLoop resp isRequired rest
      (res, Effect.addReviewer r.adoID isRequired :: effs)
    | .error _ =>
      (.error ("failed to add reviewer " ++ r.revAlias), [Effect.addReviewer r.adoID isRequired])

/-- `AddReviewers` (lines 301-331): required reviewers first, then the
optional ones. -/
def AddReviewers (resp : String → Except StoreErr Unit)
    (required optional : List Reviewer) : Except String Unit × List Effect :=
  match addReviewersLoop resp true required with
  | (.error e, effs) => (.error e, effs)
  | (.ok _, effs) =>
    match addReviewersLoop resp false optional with
    | (res, effs2) => (res, effs ++ effs2)

/-- The comment body built by `addReviewerComment` (lines 246-254): a
greeting naming the required aliases comma-joined, fixed SLA text, and the
bot identifier on the trailing line. -/
def reviewerCommentBody (botIdentifier : String) (required : List Reviewer) : String :=
  "Hello " ++ String.intercalate "," (required.map Reviewer.revAlias) ++ ",\r\n\r\n" ++
    "You are randomly selected as the **required** code reviewers of this change. \r\n\r\n" ++
    "Your responsibility is to review **each** iteration of this CR until signoff. " ++
    "You should provide no more than 48 hour SLA for each iteration.\r\n\r\n" ++
    "Thank you.\r\n\r\n" ++
    "CR Balancer\r\n" ++ botIdentifier

/-! ### `balanceReview` (lines 104-138) -/

/-- The trigger loop of lines 124-130: each configured trigger fires; its
error, if any, is logged, never propagated. -/
def fireTriggers (triggers : Option (List ReviewerTrigger))
    (required optional : List Reviewer) (url : String) : List Effect :=
  match triggers with
  | none => []
  | some ts => ts.enum.map fun p =>
      let _ := p.2 required optional url
      Effect.fireTrigger p.1

/-- `balanceReview`: guard, resolve, assign, annotate, fire hooks; returns
the outcome together with the trace of platform mutations issued. -/
def balanceReview (botIdentifier : String) (opts : Options)
    (env : BalanceEnv) (pr : PullRequest) : ExecResult × List Effect :=
  match ContainsReviewBalancerComment botIdentifier env.threads with
  | none => (.panicked, [])
  | some true => (.ok, [])
  | some false =>
    match getReviewers env pr with
    | .error e => (.err ("failed to get reviewers: " ++ e), [])
    | .ok (required, optional) =>
      match AddReviewers env.createReviewerResp required optional with
      | (.error e, effs) => (.err ("failed to add reviewers to PR: " ++ e), effs)
      | (.ok _, effs) =>
        let commentEff := Effect.postComment (reviewerCommentBody botIdentifier required)
        match env.createThreadResp with
        | .error _ => (.err "failed to add reviewer comment", effs ++ [commentEff])
        | .ok _ =>
          (.ok, effs ++ [commentEff] ++ fireTriggers opts.reviewerTriggers required optional pr.url)

/-! ### `AutoReviewer.Run` (lines 79-102) and `Manager.Run` -/

/-- Per-PR loop of `Run` (lines 89-99): filtered PRs are skipped; the
first `balanceReview` error aborts the loop (wrapped), a panic unwinds. -/
def runLoop (botIdentifier : String) (opts : Options) (envOf : PullRequest → BalanceEnv) :
    List PullRequest → ExecResult × List Effect
  | [] => (.ok, [])
  | pr :: rest =>
    if shouldFilter opts.filters pr then
      runLoop botIdentifier opts envOf rest
    else
      match balanceReview botIdentifier opts (envOf pr) pr with
      | (.ok, effs) =>
        let (res, more) := runLoop botIdentifier opts envOf rest
        (res, effs ++ more)
      | (.err e, effs) => (.err ("failed to balancer reviewers: " ++ e), effs)
      | (.panicked, effs) => (.panicked, effs)

/-- The environment of one repository's `AutoReviewer` inside the manager
cycle.  `reconcileDue` models `LastReconciled + DefaultReconcilePeriod`
being before now; `reconcileResp` is modelled from the spec: `Reconcile`
is the external reconciliation step refreshing repository metadata (its
body is not part of the embedded core), so only its outcome is kept. -/
structure RepoEnv where
  botIdentifier : String
  opts : Options
  pullRequests : Except StoreErr (List PullRequest)
  envOf : PullRequest → BalanceEnv
  reconcileDue : Bool
  reconcileResp : Except String Unit

/-- `AutoReviewer.Run`: fetches the PR list then runs the per-PR loop. -/
def runAutoReviewer (r : RepoEnv) : ExecResult × List Effect :=
  match r.pullRequests with
  | .error _ => (.err "get pull requests error", [])
  | .ok prs => runLoop r.botIdentifier r.opts r.envOf prs

/-- `Manager.Run` (manager source, lines 58-77): for each auto reviewer,
reconcile when due (an error is returned immediately), then `Run`; the
first error of a `Run` is returned and later repositories are skipped. -/
def managerRun : List RepoEnv → ExecResult × List Effect
  | [] => (.ok, [])
  | r :: rest =>
    match (if r.reconcileDue then r.reconcileResp else .ok ()) with
    | .error e => (.err e, [])
    | .ok _ =>
      match runAutoReviewer r with
      | (.ok, effs) =>
        let (res, more) := managerRun rest
        (res, effs ++ more)
      | (.err e, effs) => (.err e, effs)
      | (.panicked, effs) => (.panicked, effs)

/-! ### Concrete fixtures used to instantiate the theorems -/

/-- Options with nil filters and nil triggers (as built by
`NewDefaultManager`, which passes `Options{}`). -/
def noTriggerOptions : Options := { filters := none, reviewerTriggers := none }

/-- A pull request targeting master, not WIP, not draft, authored by bob. -/
def prMain : PullRequest :=
  { pullRequestId := 1, title := "Add feature", isDraft := some false,
    targetRefName := "refs/heads/master", createdByID := "id-bob",
    createdByAlias := "bob", repositoryID := "repo-1", url := "https://example.test/pr/1" }

/-- A pull request targeting a non-master branch. -/
def prDev : PullRequest :=
  { prMain with pullRequestId := 2, targetRefName := "refs/heads/dev" }

/-- A pull request targeting master in different case. -/
def prCapsMaster : PullRequest :=
  { prMain with pullRequestId := 3, targetRefName := "refs/heads/MASTER" }

/-- A second pull request, used as the tail of a run. -/
def prOther : PullRequest :=
  { prMain with pullRequestId := 4, createdByID := "id-carol", createdByAlias := "carol" }

/-- The concrete reviewer record for alice. -/
def aliceR : Reviewer := { adoID := "id-alice", revAlias := "alice" }

/-- Environment whose discussion already carries a bot comment. -/
def envAlreadyBalanced : BalanceEnv :=
  { threads := .ok [[some ("comment " ++ defaultBotIdentifier)]],
    reviewerGroups := .ok [some { owners := ["alice"], teams := [] }],
    getReviewerByADOID := fun _ => .error .notFound,
    getTeam := fun _ => .error .notFound,
    popLRU := fun _ => .error .notFound,
    createReviewerResp := fun _ => .ok (),
    createThreadResp := .ok () }

/-- Environment where the reviewer store does not know the PR author while
the ownership declaration lists the author's alias as an owner. -/
def envUnknownAuthor : BalanceEnv :=
  { threads := .ok [],
    reviewerGroups := .ok [some { owners := ["bob"], teams := [] }],
    getReviewerByADOID := fun _ => .error .notFound,
    getTeam := fun _ => .error .notFound,
    popLRU := fun _ => .error .notFound,
    createReviewerResp := fun _ => .ok (),
    createThreadResp := .ok () }

/-- Environment where the reviewer store resolves the author (bob), who is
also listed as an owner. -/
def envKnownAuthor : BalanceEnv :=
  { envUnknownAuthor with
    reviewerGroups := .ok [some { owners := ["bob", "alice"], teams := [] }],
    getReviewerByADOID := fun i =>
      if i = "id-bob" then .ok { adoID := "id-bob", revAlias := "bob" } else .error (.notFound) }

/-- Environment whose ownership declaration names a registered team
(`team-x`, roster `mallory`) in its owners list. -/
def envTeamNamedOwner : BalanceEnv :=
  { envUnknownAuthor with
    reviewerGroups := .ok [some { owners := ["team-x"], teams := [] }],
    getTeam := fun n =>
      if n = "team-x" then .ok { members := ["mallory"] } else .error (.notFound) }

/-- Environment where alice is both an explicit owner and a member of the
referenced team `team-y`. -/
def envOwnerAlsoTeamMember : BalanceEnv :=
  { envUnknownAuthor with
    reviewerGroups := .ok [some { owners := ["alice"], teams := ["team-y"] }],
    getTeam := fun n =>
      if n = "team-y" then .ok { members := ["alice", "carol"] } else .error (.notFound) }

/-- Environment where the team store always fails with a transport error. -/
def envFlakyTeamStore : BalanceEnv :=
  { envUnknownAuthor with
    reviewerGroups := .ok [some { owners := ["dave"], teams := [] }],
    getTeam := fun _ => .error (.transport "connection reset") }

/-- Environment where the `GetThreads` read fails with a transport error. -/
def envThreadReadFails : BalanceEnv :=
  { envUnknownAuthor with threads := .error (.transport "read failed") }

/-- Environment with a single poppable owner (alice). -/
def envOneOwner : BalanceEnv :=
  { envUnknownAuthor with
    reviewerGroups := .ok [some { owners := ["alice"], teams := [] }],
    popLRU := fun cands => if cands = ["alice"] then .ok aliceR else .error (.notFound) }

/-- Environment whose `GetRequiredReviewerGroups` read fails. -/
def envFailingGroups : BalanceEnv :=
  { envUnknownAuthor with reviewerGroups := .error (.transport "boom") }

/-- Repository environment whose balancing errors on its only PR. -/
def repoFailing : RepoEnv :=
  { botIdentifier := defaultBotIdentifier, opts := noTriggerOptions,
    pullRequests := .ok [prMain], envOf := fun _ => envFailingGroups,
    reconcileDue := false, reconcileResp := .ok () }

/-- A healthy repository environment (would balance its PR successfully). -/
def repoHealthy : RepoEnv :=
  { repoFailing with envOf := fun _ => envOneOwner, pullRequests := .ok [prOther] }

/-! ### Membership lemmas about the resolution loops -/

theorem mem_collectOwners {gT : String → Except StoreErr Team} {a : String} :
    ∀ {os acc : List String},
    a ∈ collectOwners gT os acc ↔ a ∈ acc ∨ (a ∈ os ∧ (gT a).isOk = false) := by
  intro os
  induction os with
  | nil => intro acc; simp [collectOwners]
  | cons o rest ih =>
    intro acc
    unfold collectOwners
    cases heq : gT o with
    | ok t =>
      rw [ih]
      constructor
      · rintro (h1 | ⟨h2, h3⟩)
        · exact Or.inl h1
        · exact Or.inr ⟨List.mem_cons_of_mem _ h2, h3⟩
      · rintro (h1 | ⟨h2, h3⟩)
        · exact Or.inl h1
        · rcases List.mem_cons.mp h2 with rfl | h4
          · rw [heq] at h3; simp [Except.isOk, Except.toBool] at h3
          · exact Or.inr ⟨h4, h3⟩
    | error e =>
      rw [ih, mem_insertSet]
      constructor
      · rintro ((h1 | rfl) | ⟨h2, h3⟩)
        · exact Or.inl h1
        · exact Or.inr ⟨List.mem_cons_self _ _, by rw [heq]; rfl⟩
        · exact Or.inr ⟨List.mem_cons_of_mem _ h2, h3⟩
      · rintro (h1 | ⟨h2, h3⟩)
        · exact Or.inl (Or.inl h1)
        · rcases List.mem_cons.mp h2 with rfl | h4
          · exact Or.inl (Or.inr rfl)
          · exact Or.inr ⟨h4, h3⟩

theorem collectTeams_ok {gT : String → Except StoreErr Team} {ts : List String} :
    ∀ {acc : List String}, (∀ tn ∈ ts, (gT tn).isOk = true) →
    ∃ acc', collectTeams gT ts acc = .ok acc' := by
  induction ts with
  | nil => exact fun {acc} _ => ⟨acc, rfl⟩
  | cons tn rest ih =>
    intro acc h
    have h1 := h tn (List.mem_cons_self _ _)
    cases heq : gT tn with
    | error e => rw [heq] at h1; simp [Except.isOk, Except.toBool] at h1
    | ok team =>
      unfold collectTeams
      rw [heq]
      exact ih fun x hx => h x (List.mem_cons_of_mem _ hx)

theorem collectGroups_ok {gT : String → Except StoreErr Team}
    {groups : List (Option ReviewerGroup)} :
    ∀ {ro rtm : List String},
    (∀ g : ReviewerGroup, some g ∈ groups → ∀ tn ∈ g.teams, (gT tn).isOk = true) →
    ∃ ro' rtm', collectGroups gT groups ro rtm = .ok (ro', rtm') := by
  induction groups with
  | nil => exact fun {ro rtm} _ => ⟨ro, rtm, rfl⟩
  | cons og rest ih =>
    intro ro rtm h
    cases og with
    | none =>
      exact ih fun g hg => h g (List.mem_cons_of_mem _ hg)
    | some g =>
      obtain ⟨rtm2, h2⟩ :=
        @collectTeams_ok gT g.teams rtm (h g (List.mem_cons_self _ _))
      unfold collectGroups
      rw [h2]
      exact ih fun g' hg' => h g' (List.mem_cons_of_mem _ hg')

theorem collectGroups_ro_mem {gT : String → Except StoreErr Team}
    {groups : List (Option ReviewerGroup)} :
    ∀ {ro rtm ro' rtm' : List String},
    collectGroups gT groups ro rtm = .ok (ro', rtm') →
    ∀ {a : String},
    (a ∈ ro' ↔ a ∈ ro ∨
      ∃ g : ReviewerGroup, some g ∈ groups ∧ a ∈ g.owners ∧ (gT a).isOk = false) := by
  induction groups with
  | nil =>
    intro ro rtm ro' rtm' h a
    simp only [collectGroups, Except.ok.injEq, Prod.mk.injEq] at h
    simp [← h.1]
  | cons og rest ih =>
    intro ro rtm ro' rtm' h a
    cases og with
    | none =>
      rw [ih h]
      constructor
      · rintro (h1 | ⟨g, hg, h2, h3⟩)
        · exact Or.inl h1
        · exact Or.inr ⟨g, List.mem_cons_of_mem _ hg, h2, h3⟩
      · rintro (h1 | ⟨g, hg, h2, h3⟩)
        · exact Or.inl h1
        · rcases List.mem_cons.mp hg with h4 | h4
          · exact absurd h4 (by simp)
          · exact Or.inr ⟨g, h4, h2, h3⟩
    | some g =>
      unfold collectGroups at h
      cases heq : collectTeams gT g.teams rtm with
      | error e => rw [heq] at h; exact absurd h (by simp)
      | ok rtm2 =>
        rw [heq] at h
        rw [ih h, mem_collectOwners]
        constructor
        · rintro ((h1 | ⟨h2, h3⟩) | ⟨g', hg', h2, h3⟩)
          · exact Or.inl h1
          · exact Or.inr ⟨g, List.mem_cons_self _ _, h2, h3⟩
          · exact Or.inr ⟨g', List.mem_cons_of_mem _ hg', h2, h3⟩
        · rintro (h1 | ⟨g', hg', h2, h3⟩)
          · exact Or.inl (Or.inl h1)
          · rcases List.mem_cons.mp hg' with h4 | h4
            · cases Option.some.inj h4
              exact Or.inl (Or.inr ⟨h2, h3⟩)
            · exact Or.inr ⟨g', h4, h2, h3⟩

/-- Membership in the final `requiredOwners` pool implies membership in the
raw collected pool (creator removal and precedence only remove). -/
theorem computePools_ro_sub {env : BalanceEnv} {pr : PullRequest}
    {groups : List (Option ReviewerGroup)} {ro rtm : List String}
    (hg : env.reviewerGroups = .ok groups)
    (h : computePools env pr = .ok (ro, rtm)) {a : String} (ha : a ∈ ro) :
    ∃ g : ReviewerGroup, some g ∈ groups ∧ a ∈ g.owners ∧ (env.getTeam a).isOk = false := by
  unfold computePools at h
  simp only [hg] at h
  cases hc : getCreator env pr with
  | error e => simp only [hc] at h; cases h
  | ok creator =>
    simp only [hc] at h
    cases hcg : collectGroups env.getTeam groups [] [] with
    | error e => simp only [hcg] at h; cases h
    | ok p =>
      obtain ⟨ro0, rtm0⟩ := p
      simp only [hcg, Except.ok.injEq, Prod.mk.injEq] at h
      have hro : a ∈ ro0 := by
        rcases h with ⟨h1, _⟩
        cases creator with
        | none => rw [← h1] at ha; exact ha
        | some c =>
          rw [← h1] at ha
          exact (mem_removeSet.mp ha).1
      rcases (collectGroups_ro_mem hcg).mp hro with h2 | h2
      · exact absurd h2 (List.not_mem_nil a)
      · exact h2

/-! ### Claim theorems -/

/-- C4: for every pull request and every combination of ownership
declarations and team rosters, after resolution `requiredTeamMembers` and
`requiredOwners` are disjoint, even when the same alias is both an
explicit owner and a member of a referenced team. -/
theorem claim_C4_pools_disjoint (env : BalanceEnv) (pr : PullRequest)
    (ro rtm : List String) (a : String)
    (h : computePools env pr = .ok (ro, rtm)) (ha : a ∈ ro) : a ∉ rtm := by
  unfold computePools at h
  cases hg : env.reviewerGroups with
  | error e => simp only [hg] at h; cases h
  | ok groups =>
    simp only [hg] at h
    cases hc : getCreator env pr with
    | error e => simp only [hc] at h; cases h
    | ok creator =>
      simp only [hc] at h
      cases hcg : collectGroups env.getTeam groups [] [] with
      | error e => simp only [hcg] at h; cases h
      | ok p =>
        obtain ⟨ro0, rtm0⟩ := p
        simp only [hcg, Except.ok.injEq, Prod.mk.injEq] at h
        obtain ⟨h1, h2⟩ := h
        rw [← h2]
        intro hmem
        exact (mem_foldl_removeSet.mp hmem).2 (h1 ▸ ha)

/-- Witness for C4 at a concrete input: alice is both the sole explicit
owner and a member of the referenced team, and the resolved pools are
`(["alice"], ["carol"])`, disjoint. -/
theorem claim_C4_pools_disjoint_witness : ("alice" : String) ∉ (["carol"] : List String) :=
  claim_C4_pools_disjoint envOwnerAlsoTeamMember prMain ["alice"] ["carol"] "alice"
    rfl (by decide)

/-- C2 counterexample: when the reviewer store does not know the PR author
(`ErrNotFound`), no author exclusion happens, so the author's alias (bob)
remains in `requiredOwners` even though bob authored the pull request.
This refutes the claim that the author's alias is absent for every
author. -/
theorem claim_C2_counterexample :
    envUnknownAuthor.getReviewerByADOID prMain.createdByID = .error .notFound ∧
    computePools envUnknownAuthor prMain = .ok (["bob"], []) ∧
    prMain.createdByAlias = "bob" ∧ ("bob" : String) ∈ (["bob"] : List String) := by
  refine ⟨rfl, rfl, rfl, by decide⟩

/-- C2 amended: whenever the reviewer store resolves the PR author's
platform id to a reviewer record, that record's alias is present in
neither `requiredOwners` nor `requiredTeamMembers` after resolution. -/
theorem claim_C2_author_excluded (env : BalanceEnv) (pr : PullRequest)
    (c : Reviewer) (ro rtm : List String)
    (hc : env.getReviewerByADOID pr.createdByID = .ok c)
    (h : computePools env pr = .ok (ro, rtm)) :
    c.revAlias ∉ ro ∧ c.revAlias ∉ rtm := by
  have hcr : getCreator env pr = .ok (some c) := by
    unfold getCreator; rw [hc]
  unfold computePools at h
  cases hg : env.reviewerGroups with
  | error e => simp only [hg] at h; cases h
  | ok groups =>
    simp only [hg, hcr] at h
    cases hcg : collectGroups env.getTeam groups [] [] with
    | error e => simp only [hcg] at h; cases h
    | ok p =>
      obtain ⟨ro0, rtm0⟩ := p
      simp only [hcg, Except.ok.injEq, Prod.mk.injEq] at h
      obtain ⟨h1, h2⟩ := h
      constructor
      · rw [← h1]
        intro hmem
        exact (mem_removeSet.mp hmem).2 rfl
      · rw [← h2]
        intro hmem
        exact (mem_removeSet.mp (mem_foldl_removeSet.mp hmem).1).2 rfl

/-- Witness for the amended C2: the store knows bob as the author; bob is
excluded from the resolved pools `(["alice"], [])`. -/
theorem claim_C2_author_excluded_witness :
    ({ adoID := "id-bob", revAlias := "bob" } : Reviewer).revAlias ∉ (["alice"] : List String) ∧
    ({ adoID := "id-bob", revAlias := "bob" } : Reviewer).revAlias ∉ ([] : List String) :=
  claim_C2_author_excluded envKnownAuthor prMain { adoID := "id-bob", revAlias := "bob" }
    ["alice"] [] rfl rfl

/-- C3 counterexample: `team-x` is a registered team name (roster
`mallory`) appearing in the owners list; resolution drops the entry
entirely: both resolved pools are empty, so the team's member does not
enter any candidate pool, refuting the claimed team expansion. -/
theorem claim_C3_counterexample :
    envTeamNamedOwner.reviewerGroups = .ok [some { owners := ["team-x"], teams := [] }] ∧
    envTeamNamedOwner.getTeam "team-x" = .ok { members := ["mallory"] } ∧
    computePools envTeamNamedOwner prMain = .ok ([], []) ∧
    ("mallory" : String) ∉ ([] : List String) := by
  refine ⟨rfl, rfl, rfl, by decide⟩

/-- C3 amended: a nominal owner entry whose string is a registered team
name is not admitted as an individual owner (it never appears in
`requiredOwners`); no team expansion of it happens (see the
counterexample), so the entry is simply dropped. -/
theorem claim_C3_team_named_owner_dropped (env : BalanceEnv) (pr : PullRequest)
    (groups : List (Option ReviewerGroup)) (g : ReviewerGroup) (o : String) (t : Team)
    (ro rtm : List String)
    (hg : env.reviewerGroups = .ok groups) (_hmem : some g ∈ groups) (_ho : o ∈ g.owners)
    (ht : env.getTeam o = .ok t)
    (h : computePools env pr = .ok (ro, rtm)) : o ∉ ro := by
  intro hro
  obtain ⟨g', _, _, hbad⟩ := computePools_ro_sub hg h hro
  rw [ht] at hbad
  simp [Except.isOk, Except.toBool] at hbad

/-- Witness for the amended C3: `team-x` is absent from the resolved
`requiredOwners` pool (which is empty). -/
theorem claim_C3_team_named_owner_dropped_witness : ("team-x" : String) ∉ ([] : List String) :=
  claim_C3_team_named_owner_dropped envTeamNamedOwner prMain
    [some { owners := ["team-x"], teams := [] }] { owners := ["team-x"], teams := [] }
    "team-x" { members := ["mallory"] } [] []
    rfl (by decide) (by decide) rfl rfl

/-- C1: for every pull request whose discussion already contains a comment
whose body includes the bot signature token, the balancing cycle performs
zero additional platform mutations: no reviewers added, no comment posted,
no side-effect hooks fired. -/
theorem claim_C1_idempotent_skip (bot : String) (opts : Options) (env : BalanceEnv)
    (pr : PullRequest) (ts : List (List (Option String)))
    (hth : env.threads = .ok ts)
    (hsig : ∃ comments ∈ ts, ∃ c ∈ comments, ∃ s, c = some s ∧ strContains s bot = true) :
    balanceReview bot opts env pr = (.ok, []) := by
  obtain ⟨comments, hcs, c, hc, s, rfl, hs⟩ := hsig
  have hbot : hasBotComment bot ts = true := by
    refine List.any_eq_true.mpr ⟨comments, hcs, ?_⟩
    exact List.any_eq_true.mpr ⟨some s, hc, hs⟩
  unfold balanceReview ContainsReviewBalancerComment
  rw [hth]
  simp only [hbot]

/-- Witness for C1: a discussion already carrying the bot identifier makes
the cycle return with an empty mutation trace. -/
theorem claim_C1_idempotent_skip_witness :
    balanceReview defaultBotIdentifier noTriggerOptions envAlreadyBalanced prMain = (.ok, []) :=
  claim_C1_idempotent_skip defaultBotIdentifier noTriggerOptions envAlreadyBalanced prMain
    [[some ("comment " ++ defaultBotIdentifier)]] rfl
    ⟨[some ("comment " ++ defaultBotIdentifier)], by decide,
      some ("comment " ++ defaultBotIdentifier), by decide,
      "comment " ++ defaultBotIdentifier, rfl, by decide⟩

/-- C5 counterexample: when the `GetThreads` read fails with a transport
error, `balanceReview` does not surface an error to its caller
(`isErr = false`): `ContainsReviewBalancerComment` panics instead.  No
resolution or mutation occurs, but the "surfaced to the caller" part of
the claim is false. -/
theorem claim_C5_counterexample :
    envThreadReadFails.threads = .error (.transport "read failed") ∧
    (balanceReview defaultBotIdentifier noTriggerOptions envThreadReadFails prMain).1.isErr
      = false ∧
    balanceReview defaultBotIdentifier noTriggerOptions envThreadReadFails prMain
      = (.panicked, []) :=
  ⟨rfl, rfl, rfl⟩

/-- C5 amended: a transport failure of the discussion-thread read makes the
pull request's processing abort by panic — no reviewer resolution and zero
platform mutations — rather than by an error return to the caller. -/
theorem claim_C5_thread_read_failure_panics (bot : String) (opts : Options)
    (env : BalanceEnv) (pr : PullRequest) (e : StoreErr)
    (hth : env.threads = .error e) :
    balanceReview bot opts env pr = (.panicked, []) := by
  unfold balanceReview ContainsReviewBalancerComment
  rw [hth]

/-- Witness for the amended C5 at a concrete failing read. -/
theorem claim_C5_thread_read_failure_panics_witness :
    balanceReview defaultBotIdentifier noTriggerOptions envThreadReadFails prMain
      = (.panicked, []) :=
  claim_C5_thread_read_failure_panics defaultBotIdentifier noTriggerOptions
    envThreadReadFails prMain (.transport "read failed") rfl

/-- C6: whenever `getReviewers` succeeds, the optional list is empty and
the required list is the non-empty results of the owner-slot pop followed
by the team-slot pop, in that order. -/
theorem claim_C6_selection_shape (env : BalanceEnv) (pr : PullRequest)
    (req opt : List Reviewer)
    (h : getReviewers env pr = .ok (req, opt)) :
    opt = [] ∧ ∃ ro rtm owner teamMember,
      computePools env pr = .ok (ro, rtm) ∧
      popSlot env ro = .ok owner ∧
      popSlot env rtm = .ok teamMember ∧
      req = owner.toList ++ teamMember.toList := by
  unfold getReviewers at h
  cases hp : computePools env pr with
  | error e => simp only [hp] at h; cases h
  | ok p =>
    obtain ⟨ro, rtm⟩ := p
    simp only [hp] at h
    cases ho : popSlot env ro with
    | error e => simp only [ho] at h; cases h
    | ok owner =>
      simp only [ho] at h
      cases ht : popSlot env rtm with
      | error e => simp only [ht] at h; cases h
      | ok teamMember =>
        simp only [ht, Except.ok.injEq, Prod.mk.injEq] at h
        exact ⟨h.2.symm, ro, rtm, owner, teamMember, rfl, ho, ht, h.1.symm⟩

/-- Witness for C6: with one poppable owner (alice) and no team members,
the output is `([alice], [])`. -/
theorem claim_C6_selection_shape_witness :
    ([] : List Reviewer) = [] ∧ ∃ ro rtm owner teamMember,
      computePools envOneOwner prMain = .ok (ro, rtm) ∧
      popSlot envOneOwner ro = .ok owner ∧
      popSlot envOneOwner rtm = .ok teamMember ∧
      [aliceR] = owner.toList ++ teamMember.toList :=
  claim_C6_selection_shape envOneOwner prMain [aliceR] [] rfl

/-- C7: the filter pipeline excludes a pull request iff at least one
configured filter returns true; `NewAutoReviewer` keeps a supplied empty
filter slice as-is, and with it every pull request passes. -/
theorem claim_C7_filter_or_semantics (fs : List Filter) (pr : PullRequest) :
    (shouldFilter (some fs) pr = true ↔ ∃ f ∈ fs, f pr = true) ∧
    newAutoReviewerFilters (some ([] : List Filter)) = some [] ∧
    shouldFilter (newAutoReviewerFilters (some [])) pr = false := by
  refine ⟨?_, rfl, rfl⟩
  simp [shouldFilter, List.any_eq_true]

/-- C8: under the default filters, a pull request whose target branch is
not the canonical `refs/heads/master` reference (case-insensitively) is
excluded; one targeting it is not excluded by the branch filter. -/
theorem claim_C8_branch_filter (pr : PullRequest) :
    (equalFold pr.targetRefName "refs/heads/master" = false →
      shouldFilter (some defaultFilters) pr = true) ∧
    (equalFold pr.targetRefName "refs/heads/master" = true →
      filterMasterBranchOnly pr = false) := by
  constructor
  · intro h
    simp [shouldFilter, defaultFilters, filterMasterBranchOnly, h]
  · intro h
    simp [filterMasterBranchOnly, h]

/-- Witness for C8: a PR targeting `refs/heads/dev` is excluded by the
default pipeline; one targeting `refs/heads/MASTER` passes the branch
filter. -/
theorem claim_C8_branch_filter_witness :
    shouldFilter (some defaultFilters) prDev = true ∧
    filterMasterBranchOnly prCapsMaster = false :=
  ⟨(claim_C8_branch_filter prDev).1 (by decide),
   (claim_C8_branch_filter prCapsMaster).2 (by decide)⟩

/-- C9: during the owner-versus-team cross-check, any error of the
team-store lookup on a nominal owner — a transport error included —
admits the entry as an individual owner, and the error is swallowed:
resolution still succeeds (provided the remaining lookups behave). -/
theorem claim_C9_transport_error_admits_owner (env : BalanceEnv) (pr : PullRequest)
    (groups : List (Option ReviewerGroup)) (g : ReviewerGroup) (o m : String)
    (creator : Option Reviewer)
    (hg : env.reviewerGroups = .ok groups)
    (hmem : some g ∈ groups) (ho : o ∈ g.owners)
    (ht : env.getTeam o = .error (.transport m))
    (hteams : ∀ g' : ReviewerGroup, some g' ∈ groups →
      ∀ tn ∈ g'.teams, (env.getTeam tn).isOk = true)
    (hc : getCreator env pr = .ok creator)
    (hca : ∀ c, creator = some c → c.revAlias ≠ o) :
    ∃ ro rtm, computePools env pr = .ok (ro, rtm) ∧ o ∈ ro := by
  obtain ⟨ro0, rtm0, hcg⟩ := @collectGroups_ok env.getTeam groups [] [] hteams
  have hro0 : o ∈ ro0 := by
    refine (collectGroups_ro_mem hcg).mpr (Or.inr ⟨g, hmem, ho, ?_⟩)
    rw [ht]; rfl
  unfold computePools
  rw [hg]
  simp only [hc, hcg]
  refine ⟨_, _, rfl, ?_⟩
  cases creator with
  | none => exact hro0
  | some c =>
    exact mem_removeSet.mpr ⟨hro0, fun hx => hca c rfl hx.symm⟩

/-- Witness for C9: with a team store that always fails with a transport
error, the owner `dave` is admitted and resolution succeeds. -/
theorem claim_C9_transport_error_admits_owner_witness :
    ∃ ro rtm, computePools envFlakyTeamStore prMain = .ok (ro, rtm) ∧ "dave" ∈ ro :=
  claim_C9_transport_error_admits_owner envFlakyTeamStore prMain
    [some { owners := ["dave"], teams := [] }] { owners := ["dave"], teams := [] }
    "dave" "connection reset" none
    rfl (by decide) (by decide) rfl
    (by
      intro g' hg' tn htn
      rcases List.mem_cons.mp hg' with h | h
      · cases Option.some.inj h
        exact absurd htn (List.not_mem_nil _)
      · exact absurd h (List.not_mem_nil _))
    rfl
    (by intro c hcc; cases hcc)

/-- C10: a balancing error on one pull request aborts the repository run
(the wrapped error is returned and later pull requests are untouched), and
an erroring repository run aborts the manager cycle (later repositories
are untouched). -/
theorem claim_C10_error_stops_cycle (bot : String) (opts : Options)
    (envOf : PullRequest → BalanceEnv) (pr : PullRequest) (rest : List PullRequest)
    (e1 : String) (effs1 : List Effect)
    (r : RepoEnv) (mgrRest : List RepoEnv) (e2 : String) (effs2 : List Effect) :
    (shouldFilter opts.filters pr = false →
      balanceReview bot opts (envOf pr) pr = (.err e1, effs1) →
      runLoop bot opts envOf (pr :: rest)
        = (.err ("failed to balancer reviewers: " ++ e1), effs1)) ∧
    ((if r.reconcileDue then r.reconcileResp else .ok ()) = .ok () →
      runAutoReviewer r = (.err e2, effs2) →
      managerRun (r :: mgrRest) = (.err e2, effs2)) := by
  constructor
  · intro hf hb
    unfold runLoop
    simp only [hf, hb, Bool.false_eq_true, if_false]
  · intro hrec hrun
    unfold managerRun
    simp only [hrec, hrun]

/-- Witness for C10: the failing repository's single PR errors during
resolution; the run returns that error with no effects and the pending
healthy PR and healthy repository are never processed. -/
theorem claim_C10_error_stops_cycle_witness :
    runLoop defaultBotIdentifier noTriggerOptions (fun _ => envFailingGroups) [prMain, prOther]
      = (.err ("failed to balancer reviewers: " ++
          "failed to get reviewers: failed to get required reviewer groups"), []) ∧
    managerRun [repoFailing, repoHealthy]
      = (.err ("failed to balancer reviewers: " ++
          "failed to get reviewers: failed to get required reviewer groups"), []) := by
  have h := claim_C10_error_stops_cycle defaultBotIdentifier noTriggerOptions
    (fun _ => envFailingGroups) prMain [prOther]
    "failed to get reviewers: failed to get required reviewer groups" []
    repoFailing [repoHealthy]
    ("failed to balancer reviewers: " ++
      "failed to get reviewers: failed to get required reviewer groups") []
  exact ⟨h.1 rfl rfl, h.2 rfl (h.1 rfl rfl)⟩

end DevOpsHelper
